import Mathlib

/-!
Verification of the haystackapi data-model and codec claims.

Shallow embedding of `src/haystackapi/datatypes.py`, `src/haystackapi/csvparser.py`
and `src/haystackapi/ops.py`.  Python machine floats are modelled by `PFloat`
(rationals plus the IEEE special values, with IEEE comparison semantics);
Python `hash` functions are abstracted as parameters, since only the structure
of the hash combination is claimed; raising an exception is modelled by
`Except`/`Option`.
-/

/-! ## String wrappers (`datatypes.py`: `Uri`, `Bin` and plain `str`)

`Uri` and `Bin` subclass `str` and define `__eq__` with an `isinstance` guard
that returns `NotImplemented` for any other class; neither defines `__ne__`.
The embedding therefore has to model CPython rich-comparison dispatch:

* `a == b` first calls `type(b).__eq__(b, a)` when `type(b)` is a proper
  subclass of `type(a)` overriding `__eq__`, otherwise `type(a).__eq__(a, b)`
  first; a `NotImplemented` result falls through to the other side, and when
  both sides return `NotImplemented` the result is identity (`False` for the
  distinct freshly constructed objects compared here).
* `str.__eq__` compares text content with any `str` instance, including
  `Uri`/`Bin` instances.
* `a != b` resolves `__ne__` on the class; `Uri`/`Bin` inherit `str.__ne__`,
  which compares text content with any `str` instance.
-/

inductive HStr where
  | str (s : String)
  | uri (s : String)
  | bin (s : String)
deriving DecidableEq

def HStr.text : HStr → String
  | .str s => s
  | .uri s => s
  | .bin s => s

/-- `type(x).__eq__(x, other)` for the three classes: `Uri.__eq__` and
`Bin.__eq__` return `NotImplemented` (`none`) unless `other` is an instance of
the same class; `str.__eq__` compares content with any `str` instance. -/
def classEqMeth : HStr → HStr → Option Bool
  | .uri s, .uri t => some (s == t)
  | .uri _, _ => none
  | .bin s, .bin t => some (s == t)
  | .bin _, _ => none
  | .str s, o => some (s == o.text)

/-- `type(b)` is a proper subclass of `type(a)` (only `Uri < str`, `Bin < str`
here), which gives `b`'s method priority in rich-comparison dispatch. -/
def properSubclass : HStr → HStr → Bool
  | .str _, .uri _ => true
  | .str _, .bin _ => true
  | _, _ => false

/-- Python `a == b` over the three wrapper classes. -/
def pyEq (a b : HStr) : Bool :=
  if properSubclass a b then
    match classEqMeth b a with
    | some r => r
    | none =>
      match classEqMeth a b with
      | some r => r
      | none => false
  else
    match classEqMeth a b with
    | some r => r
    | none =>
      match classEqMeth b a with
      | some r => r
      | none => false

/-- Python `a != b` over the three wrapper classes: none of them defines
`__ne__`, so the inherited `str.__ne__` compares text content. -/
def pyNe (a b : HStr) : Bool :=
  a.text != b.text

/-! ## Floats and `Qty` (`datatypes.py` lines 61-303)

`PFloat` models a Python float value: a finite value (exact, as a rational),
`inf`, `-inf` or `nan`, with IEEE-754 comparison semantics. -/

inductive PFloat where
  | nan
  | inf
  | ninf
  | fin (q : ℚ)
deriving DecidableEq

/-- Python float `==`: `nan` is not equal to anything, including itself. -/
def pfeq : PFloat → PFloat → Bool
  | .fin a, .fin b => a == b
  | .inf, .inf => true
  | .ninf, .ninf => true
  | _, _ => false

/-- Python float `<`: any comparison with `nan` is false. -/
def pflt : PFloat → PFloat → Bool
  | .nan, _ => false
  | _, .nan => false
  | .fin a, .fin b => a < b
  | .fin _, .inf => true
  | .fin _, .ninf => false
  | .inf, _ => false
  | .ninf, .ninf => false
  | .ninf, _ => true

def pfle (a b : PFloat) : Bool := pflt a b || pfeq a b

def pfgt (a b : PFloat) : Bool := pflt b a

def pfge (a b : PFloat) : Bool := pfle b a

/-- A Haystack Number: float value plus optional unit label
(`Qty` in `datatypes.py`; `BasicQuantity` adds nothing). -/
structure Qty where
  value : PFloat
  unit : Option String
deriving DecidableEq

/-- `Qty._cmp_op` restricted to a `Qty` right operand (`datatypes.py` lines
269-274): when the units differ it raises `TypeError`, modelled as
`Except.error ()`; otherwise it applies the float comparison operator. -/
def cmp_op (op : PFloat → PFloat → Bool) (a other : Qty) : Except Unit Bool :=
  if other.unit ≠ a.unit then .error ()
  else .ok (op a.value other.value)

def qty_eq (a b : Qty) : Except Unit Bool := cmp_op pfeq a b

def qty_ne (a b : Qty) : Except Unit Bool := cmp_op (fun x y => !pfeq x y) a b

def qty_lt (a b : Qty) : Except Unit Bool := cmp_op pflt a b

def qty_le (a b : Qty) : Except Unit Bool := cmp_op pfle a b

def qty_gt (a b : Qty) : Except Unit Bool := cmp_op pfgt a b

def qty_ge (a b : Qty) : Except Unit Bool := cmp_op pfge a b

/-! ## `Ref` (`datatypes.py` lines 490-542)

`Ref.__init__` asserts `re.match("^[a-zA-Z0-9_:\\-.~]+$", name)`.  Note that
Python's `$` also matches just before a single newline at the end of the
string, so the assertion also passes for a valid name followed by one
trailing `"\n"`.  A failed assertion is modelled as `none`. -/

def refNameChar (c : Char) : Bool :=
  c.isAlpha || c.isDigit || c = '_' || c = ':' || c = '-' || c = '.' || c = '~'

/-- `re.match("^[a-zA-Z0-9_:\\-.~]+$", name)` succeeds: one or more class
characters, optionally followed by a single trailing newline (Python `$`). -/
def refNameOk (name : String) : Bool :=
  let cs := name.toList
  let core := if cs.getLast? = some (Char.ofNat 10) then cs.dropLast else cs
  !core.isEmpty && core.all refNameChar

structure Ref where
  name : String
  value : Option String
  has_value : Bool
deriving DecidableEq

/-- `Ref.__init__(name, value=None, has_value=False)`: validates the name and
sets `has_value = has_value or (value is not None)`. -/
def mkRef (name : String) (value : Option String) (has_value : Bool) : Option Ref :=
  if refNameOk name then some ⟨name, value, has_value || value.isSome⟩ else none

/-- `Ref.__eq__`: compares `(name, has_value, value)`. -/
def refEq (a b : Ref) : Bool :=
  a.name == b.name && a.has_value == b.has_value && a.value == b.value

/-- `Ref.__lt__`: `self.name.__lt__(other.name)`. -/
def refLt (a b : Ref) : Bool := decide (a.name < b.name)

/-- `Ref.__le__`. -/
def refLe (a b : Ref) : Bool := decide (a.name ≤ b.name)

/-- `Ref.__gt__`. -/
def refGt (a b : Ref) : Bool := decide (b.name < a.name)

/-- `Ref.__ge__`. -/
def refGe (a b : Ref) : Bool := decide (b.name ≤ a.name)

/-- `Ref.__hash__`: `hash(name) ^ hash(value) ^ hash(has_value)`, with the
three Python hash functions abstracted as parameters. -/
def refHash (hs : String → Nat) (hv : Option String → Nat) (hb : Bool → Nat)
    (r : Ref) : Nat :=
  hs r.name ^^^ hv r.value ^^^ hb r.has_value

/-! ## Singletons (`datatypes.py` lines 443-487) -/

/-- The singleton values `MARKER`, `NA`, `REMOVE`. -/
inductive SingletonVal where
  | marker
  | na
  | remove
deriving DecidableEq

/-- The three singleton classes `MarkerType`, `NAType`, `RemoveType`. -/
inductive SingletonClass where
  | markerType
  | naType
  | removeType
deriving DecidableEq

def classOf : SingletonVal → SingletonClass
  | .marker => .markerType
  | .na => .naType
  | .remove => .removeType

def MARKER : SingletonVal := .marker

def NA : SingletonVal := .na

def REMOVE : SingletonVal := .remove

/-- `Singleton.__copy__`: `return self`. -/
def singleton_copy (v : SingletonVal) : SingletonVal := v

/-- `Singleton.__deepcopy__(self, memo)`: `return self`. -/
def singleton_deepcopy (v : SingletonVal) (_memo : Unit) : SingletonVal := v

/-- `Singleton.__hash__`: `hash(self.__class__)`, with Python's class hash
abstracted as a parameter. -/
def singleton_hash (h : SingletonClass → Nat) (v : SingletonVal) : Nat :=
  h (classOf v)

/-! ## `Coordinate` (`datatypes.py` lines 332-368) -/

structure Coordinate where
  latitude : PFloat
  longitude : PFloat
deriving DecidableEq

/-- `Coordinate.__eq__` between two Coordinates:
`(self.latitude == other.latitude) and (self.longitude == other.longitude)`. -/
def coordEq (a b : Coordinate) : Bool :=
  pfeq a.latitude b.latitude && pfeq a.longitude b.longitude

/-- `Coordinate.__hash__`: `hash(self.latitude) ^ hash(self.longitude)`, with
Python's float hash abstracted as a parameter. -/
def coordHash (hf : PFloat → Nat) (c : Coordinate) : Nat :=
  hf c.latitude ^^^ hf c.longitude

/-! ## CSV parser (`csvparser.py`)

The CSV reader (`csv.reader`, standard library) turns the input text into a
list of rows, each a list of cell strings; the embedding starts from that
list-of-rows form and mirrors `parse_grid` / `parse_scalar` cell for cell.
The Zinc scalar parser (`zincparser.parse_scalar`, delegated to for any cell
not handled by the fixed rules) is abstracted as a parameter
`zp : String → Option CVal`, `none` standing for `ZincParseException`. -/

/-- A parsed cell value.  `null` is Python `None` (Zinc `N`); `other` stands
for any further Zinc scalar (number, date, ...), identified by its text. -/
inductive CVal where
  | null
  | marker
  | bool (b : Bool)
  | ref (r : Ref)
  | str (s : String)
  | other (text : String)
deriving DecidableEq

/-- Errors a CSV parse can raise: `PErr.assertion` is the `AssertionError`
from `Ref.__init__`, `PErr.parse` the `ZincParseException` raised by
`parse_grid` for an overflowing cell. -/
inductive PErr where
  | assertion
  | parse
deriving DecidableEq

/-- Python `s.split(" ", 1)` on the character list: everything before the
first space, and the rest (if any space occurs). -/
def splitFirstSpaceChars : List Char → List Char × Option (List Char)
  | [] => ([], none)
  | c :: rest =>
    if c.toNat = 32 then ([], some rest)
    else
      match splitFirstSpaceChars rest with
      | (pre, tail) => (c :: pre, tail)

/-- Python `s.split(" ", 1)`: the part before the first space, and the rest
(if any space occurs). -/
def splitFirstSpace (s : String) : String × Option String :=
  match splitFirstSpaceChars s.toList with
  | (pre, none) => (String.mk pre, none)
  | (pre, some rest) => (String.mk pre, some (String.mk rest))

/-- The result of `csvparser.parse_scalar` on one cell: `_EMPTY` or a value. -/
inductive CsvCell where
  | empty
  | val (v : CVal)
deriving DecidableEq

/-- `csvparser.parse_scalar` (lines 42-56): empty cell, check mark, booleans
and `@`-refs are handled by fixed rules; anything else goes to the Zinc
scalar parser, falling back to a plain string when that fails. -/
def csv_parse_scalar (zp : String → Option CVal) (scalar : String) :
    Except PErr CsvCell :=
  if scalar = "" then .ok .empty
  else if scalar = "✓" then .ok (.val .marker)
  else if scalar = "true" then .ok (.val (.bool true))
  else if scalar = "false" then .ok (.val (.bool false))
  else if scalar.toList.head? = some '@' then
    match mkRef (splitFirstSpace (String.mk (scalar.toList.drop 1))).1
        (splitFirstSpace (String.mk (scalar.toList.drop 1))).2 false with
    | some r => .ok (.val (.ref r))
    | none => .error .assertion
  else
    match zp scalar with
    | some v => .ok (.val v)
    | none => .ok (.val (.str scalar))

/-- Python dict assignment `a_map[k] = v` on an insertion-ordered dict. -/
def dictInsert (m : List (String × CVal)) (k : String) (v : CVal) :
    List (String × CVal) :=
  if m.any (fun p => p.1 == k) then
    m.map (fun p => if p.1 == k then (k, v) else p)
  else m ++ [(k, v)]

/-- The inner loop of `csvparser.parse_grid` (lines 27-35) over the cells of
one data row: parse each cell, skip `_EMPTY` cells, raise `ParseError` when a
non-empty cell falls at an index with no header, skip Python-`None` values,
and enter everything else into the row dict under its header. -/
def rowLoop (zp : String → Option CVal) (headers : List String) :
    Nat → List String → List (String × CVal) → Except PErr (List (String × CVal))
  | _, [], a_map => .ok a_map
  | idx, c :: rest, a_map =>
    match csv_parse_scalar zp c with
    | .error e => .error e
    | .ok .empty => rowLoop zp headers (idx + 1) rest a_map
    | .ok (.val v) =>
      if headers.length ≤ idx then .error .parse
      else if v = CVal.null then rowLoop zp headers (idx + 1) rest a_map
      else rowLoop zp headers (idx + 1) rest (dictInsert a_map (headers.getD idx "") v)

/-- `csvparser.parse_grid` after the CSV reader: the first row is the column
headers, every following row becomes a row dict.  The grid's column list is
the headers unchanged, so only the rows are returned. -/
def csv_parse_grid (zp : String → Option CVal) (headers : List String) :
    List (List String) → Except PErr (List (List (String × CVal)))
  | [] => .ok []
  | r :: rs =>
    match rowLoop zp headers 0 r [] with
    | .error e => .error e
    | .ok a_map =>
      match csv_parse_grid zp headers rs with
      | .error e => .error e
      | .ok gs => .ok (a_map :: gs)

/-- A Zinc scalar parser stub that fails on every cell (concrete instance for
closed evaluations; the fixed-rule cells never reach it). -/
def zincStub : String → Option CVal := fun _ => none

/-- Does `hasOverflow n idx cells` hold: some cell at running index `≥ n` is
non-empty?  Mirrors which cells of a row make `parse_grid` raise its
overflow `ParseError` when headers have length `n`. -/
def hasOverflow (n : Nat) : Nat → List String → Bool
  | _, [] => false
  | idx, c :: rest =>
    if c = "" then hasOverflow n (idx + 1) rest
    else decide (n ≤ idx) || hasOverflow n (idx + 1) rest

def isOkE (x : Except PErr CsvCell) : Bool :=
  match x with
  | .ok _ => true
  | .error _ => false

/-! ## `XStr` (`datatypes.py` lines 403-440)

`XStr.__init__` decodes `hex`/`b64` payloads to byte buffers at construction
(failures raise, modelled as `none`); any other encoding keeps the string as
is.  `PyData` distinguishes byte buffers from strings, since Python
`bytes == str` is `False`. -/

inductive PyData where
  | bytes (bs : List Nat)
  | str (s : String)
deriving DecidableEq

def hexDigit (c : Char) : Option Nat :=
  if c.isDigit then some (c.toNat - 48)
  else if 'a' ≤ c ∧ c ≤ 'f' then some (c.toNat - 87)
  else if 'A' ≤ c ∧ c ≤ 'F' then some (c.toNat - 55)
  else none

/-- `bytearray.fromhex`: pairs of hex digits, spaces allowed between pairs. -/
def hexPairs : List Char → Option (List Nat)
  | [] => some []
  | c1 :: rest1 =>
    if c1.toNat = 32 then hexPairs rest1
    else
      match rest1 with
      | [] => none
      | c2 :: rest =>
        match hexDigit c1, hexDigit c2 with
        | some h, some l => (hexPairs rest).map (fun bs => (16 * h + l) :: bs)
        | _, _ => none

def hexDecode (s : String) : Option (List Nat) :=
  hexPairs s.toList

def b64Digit (c : Char) : Option Nat :=
  if 'A' ≤ c ∧ c ≤ 'Z' then some (c.toNat - 65)
  else if 'a' ≤ c ∧ c ≤ 'z' then some (c.toNat - 71)
  else if c.isDigit then some (c.toNat + 4)
  else if c = '+' then some 62
  else if c = '/' then some 63
  else none

/-- Decode a run of 6-bit groups to bytes; a final group of two or three
digits yields one or two bytes (trailing bits discarded, as Python does). -/
def b64Chunks : List Nat → Option (List Nat)
  | [] => some []
  | [_] => none
  | [a, b] => some [a * 4 + b / 16]
  | [a, b, c] => some [a * 4 + b / 16, (b % 16) * 16 + c / 4]
  | a :: b :: c :: d :: rest =>
    (b64Chunks rest).map (fun bs =>
      (a * 4 + b / 16) :: ((b % 16) * 16 + c / 4) :: ((c % 4) * 64 + d) :: bs)

/-- `base64.b64decode` (default non-validating mode): characters outside the
alphabet are discarded, then the digit run plus `=` padding must be a
multiple of four. -/
def b64Decode (s : String) : Option (List Nat) :=
  let kept := s.toList.filter (fun c => (b64Digit c).isSome || c = '=')
  let body := kept.takeWhile (fun c => c != '=')
  let pad := kept.length - body.length
  if kept.drop body.length ≠ List.replicate pad '=' then none
  else if 2 < pad then none
  else if (body.length + pad) % 4 ≠ 0 then none
  else
    match body.mapM b64Digit with
    | none => none
    | some ds => b64Chunks ds

structure XStr where
  encoding : String
  data : PyData
deriving DecidableEq

/-- `XStr.__init__(encoding, data)`: decode `hex`/`b64` payloads, keep any
other encoding's payload as the raw string. -/
def mkXStr (encoding data : String) : Option XStr :=
  if encoding = "hex" then (hexDecode data).map (fun bs => ⟨encoding, .bytes bs⟩)
  else if encoding = "b64" then (b64Decode data).map (fun bs => ⟨encoding, .bytes bs⟩)
  else some ⟨encoding, .str data⟩

/-- Python `x.data == y.data` over byte buffers and strings (`bytes == str`
is always `False`; `bytearray == bytes` compares contents). -/
def pdEq : PyData → PyData → Bool
  | .bytes a, .bytes b => a == b
  | .str a, .str b => a == b
  | _, _ => false

/-- `XStr.__eq__`: `self.data == other.data`, the encoding is ignored. -/
def xstrEq (x y : XStr) : Bool := pdEq x.data y.data

/-! ## Format negotiation (`ops.py` `_dump_response`, lines 221-254)

`_dump_response` delegates to `accept_types.get_best_match`, a third-party
function whose source is not under `src/`.  Modelled from the spec: the spec
(§6.1) fixes the three mime types and the negotiation contract, and `ops.py`
itself contains a line-for-line adaptation of the missing function
(`get_best_encoding_match` / `_parse_header` / `_get_weight`, lines 131-176):
parse the header into acceptable types with `q`-weights, sort by weight
descending (Python's stable sort, so equal weights keep header order), then
scan acceptable types in that order and return the first available type one
of them matches.  The lexical layer is abstracted: a header is given as its
comma-separated items, each already split into a `type/subtype` pair and a
`q`-weight (default 1); `*` in an acceptable pattern matches any available
component, as in `accept_types`' wildcard patterns. -/

def MODE_ZINC : String := "text/zinc"

def MODE_JSON : String := "application/json"

def MODE_CSV : String := "text/csv"

def DEFAULT_MIME_TYPE : String := MODE_CSV

/-- One item of an `Accept` header: media range `main/sub` plus `q`-weight. -/
structure AItem where
  main : String
  sub : String
  weight : ℚ
deriving DecidableEq

/-- One component of an acceptable pattern matched against an available
type's component: `*` matches anything. -/
def partMatch (p a : String) : Bool :=
  if p = "*" then true else p == a

def amatches (it : AItem) (av : String × String) : Bool :=
  partMatch it.main av.1 && partMatch it.sub av.2

/-- Insert into a weight-descending list, after all items of equal weight
(the placement Python's stable descending sort gives). -/
def insertDesc (x : AItem) : List AItem → List AItem
  | [] => [x]
  | y :: ys => if y.weight < x.weight then x :: y :: ys else y :: insertDesc x ys

/-- `sorted(items, reverse=True)` with `__lt__` comparing weights. -/
def sortDesc (l : List AItem) : List AItem :=
  l.foldl (fun acc x => insertDesc x acc) []

/-- The available list `_dump_response` passes to `get_best_match`. -/
def availTypes : List (String × String) :=
  [("*", "*"), ("text", "csv"), ("text", "zinc"), ("application", "json")]

def render (p : String × String) : String := p.1 ++ "/" ++ p.2

/-- `accept_types.get_best_match(accept, ["*/*", MODE_CSV, MODE_ZINC,
MODE_JSON])`: first acceptable type (in weight-then-header order) matching an
available type, scanning the available list in its given order. -/
def get_best_match (items : List AItem) : Option String :=
  ((sortDesc items).findSome? (fun it => availTypes.find? (fun av => amatches it av))).map render

/-- The tail of `_dump_response`: no match means HTTP 406 unless a default
mode was supplied. -/
def dump_fallback (dmp : String → String) : Option String → Except Nat (String × String)
  | some d => .ok (d ++ "; charset=utf-8", dmp d)
  | none => .error 406

/-- `_dump_response(accept, grid, default)`: the grid dumper is abstracted as
`dmp : mode → body`; the result is `(content-type, body)` or the HTTP error
code 406. -/
def dump_response (dmp : String → String) (items : List AItem)
    (default : Option String) : Except Nat (String × String) :=
  match get_best_match items with
  | some accept_type =>
    if accept_type = DEFAULT_MIME_TYPE ∨ accept_type = "*/*" then
      .ok (DEFAULT_MIME_TYPE ++ "; charset=utf-8", dmp DEFAULT_MIME_TYPE)
    else if accept_type = MODE_ZINC then
      .ok (MODE_ZINC ++ "; charset=utf-8", dmp MODE_ZINC)
    else if accept_type = MODE_JSON then
      .ok (MODE_JSON ++ "; charset=utf-8", dmp MODE_JSON)
    else if accept_type = MODE_CSV then
      .ok (MODE_CSV ++ "; charset=utf-8", dmp MODE_CSV)
    else dump_fallback dmp default
  | none => dump_fallback dmp default

/-- A grid dumper stub (concrete instance for closed evaluations). -/
def dumpStub : String → String := fun _ => ""

/-! ## Helper lemmas -/

theorem cmp_op_ok (op : PFloat → PFloat → Bool) (a b : Qty) (h : a.unit = b.unit) :
    cmp_op op a b = Except.ok (op a.value b.value) := by
  unfold cmp_op
  rw [if_neg (fun hne => hne h.symm)]

theorem cmp_op_err (op : PFloat → PFloat → Bool) (a b : Qty) (h : a.unit ≠ b.unit) :
    cmp_op op a b = Except.error () := by
  unfold cmp_op
  rw [if_pos (fun he => h he.symm)]

theorem pdEq_iff (a b : PyData) : pdEq a b = true ↔ a = b := by
  cases a <;> cases b <;> simp [pdEq]

/-! ## Claim theorems -/

/-- Claim C1, counterexample: at `s = "a"` the plain string and the `Uri`
wrapper compare equal under `==` (Python falls back to `str` content
comparison) and `!=` returns `False`, refuting the claimed mutual
inequality of the three wrappers. -/
theorem wrappers_counterexample :
    pyEq (HStr.str "a") (HStr.uri "a") = true ∧
    pyNe (HStr.str "a") (HStr.uri "a") = false := by
  constructor <;> decide

/-- Claim C1, amended: for every string `s`, `Uri(s)` and `Bin(s)` are
mutually unequal under `==`, but the plain string compares `==`-equal to both
wrappers (the `NotImplemented` guard falls back to `str` content comparison),
and `!=` between any two of the three at the same text is `False`, since all
three use the inherited `str.__ne__`. -/
theorem wrappers_contract : ∀ s : String,
    pyEq (HStr.uri s) (HStr.bin s) = false ∧
    pyEq (HStr.bin s) (HStr.uri s) = false ∧
    pyEq (HStr.str s) (HStr.uri s) = true ∧
    pyEq (HStr.uri s) (HStr.str s) = true ∧
    pyEq (HStr.str s) (HStr.bin s) = true ∧
    pyEq (HStr.bin s) (HStr.str s) = true ∧
    pyNe (HStr.str s) (HStr.uri s) = false ∧
    pyNe (HStr.uri s) (HStr.bin s) = false ∧
    pyNe (HStr.str s) (HStr.bin s) = false := by
  intro s
  refine ⟨rfl, rfl, ?_, ?_, ?_, ?_, ?_, ?_, ?_⟩ <;>
    simp [pyEq, pyNe, classEqMeth, properSubclass, HStr.text]

/-- Claim C2, counterexample: comparing two Numbers with value 1 but units
`"m"` and `"ft"` raises `TypeError` for `==` and `<` instead of returning
`False`. -/
theorem qty_units_counterexample :
    qty_eq ⟨PFloat.fin 1, some "m"⟩ ⟨PFloat.fin 1, some "ft"⟩ = Except.error () ∧
    qty_lt ⟨PFloat.fin 1, some "m"⟩ ⟨PFloat.fin 1, some "ft"⟩ = Except.error () :=
  ⟨cmp_op_err _ _ _ (by decide), cmp_op_err _ _ _ (by decide)⟩

/-- Claim C2, amended: for Numbers with equal unit labels every comparison
applies the float operator to the values (so equality holds iff the float
values compare equal, and `NaN != NaN`); when the unit labels differ, all six
comparison operators raise `TypeError` instead of returning `False`. -/
theorem qty_cmp_contract : ∀ a b : Qty,
    (a.unit = b.unit →
      qty_eq a b = Except.ok (pfeq a.value b.value) ∧
      qty_ne a b = Except.ok (!pfeq a.value b.value) ∧
      qty_lt a b = Except.ok (pflt a.value b.value) ∧
      qty_le a b = Except.ok (pfle a.value b.value) ∧
      qty_gt a b = Except.ok (pfgt a.value b.value) ∧
      qty_ge a b = Except.ok (pfge a.value b.value)) ∧
    (a.unit ≠ b.unit →
      qty_eq a b = Except.error () ∧
      qty_ne a b = Except.error () ∧
      qty_lt a b = Except.error () ∧
      qty_le a b = Except.error () ∧
      qty_gt a b = Except.error () ∧
      qty_ge a b = Except.error ()) ∧
    (∀ u : Option String,
      qty_eq ⟨PFloat.nan, u⟩ ⟨PFloat.nan, u⟩ = Except.ok false ∧
      qty_ne ⟨PFloat.nan, u⟩ ⟨PFloat.nan, u⟩ = Except.ok true) := by
  intro a b
  refine ⟨fun h => ?_, fun h => ?_, fun u => ?_⟩
  · exact ⟨cmp_op_ok _ a b h, cmp_op_ok _ a b h, cmp_op_ok _ a b h,
      cmp_op_ok _ a b h, cmp_op_ok _ a b h, cmp_op_ok _ a b h⟩
  · exact ⟨cmp_op_err _ a b h, cmp_op_err _ a b h, cmp_op_err _ a b h,
      cmp_op_err _ a b h, cmp_op_err _ a b h, cmp_op_err _ a b h⟩
  · exact ⟨cmp_op_ok _ _ _ rfl, cmp_op_ok _ _ _ rfl⟩

/-- Witness for C2: the amended theorem applied at concrete Numbers, both
with matching and with differing units. -/
theorem qty_cmp_contract_witness :
    qty_eq ⟨PFloat.fin 1, some "m"⟩ ⟨PFloat.fin 1, some "m"⟩ = Except.ok true ∧
    qty_ne ⟨PFloat.fin 2, some "m"⟩ ⟨PFloat.fin 1, some "ft"⟩ = Except.error () := by
  constructor
  · have h := ((qty_cmp_contract ⟨PFloat.fin 1, some "m"⟩ ⟨PFloat.fin 1, some "m"⟩).1 rfl).1
    rw [h]
    exact congrArg Except.ok (by decide)
  · exact ((qty_cmp_contract ⟨PFloat.fin 2, some "m"⟩ ⟨PFloat.fin 1, some "ft"⟩).2.1
      (by decide)).2.1

/-- Claim C5, code bug: the newline character is outside the allowed name
class, yet `Ref("x\n")` constructs successfully because the validation
regex's `$` matches before a trailing newline; a name with any other invalid
character fails, and a valid name succeeds. -/
theorem ref_trailing_newline_bug :
    refNameChar (Char.ofNat 10) = false ∧
    mkRef "x\n" none false = some ⟨"x\n", none, false⟩ ∧
    mkRef "x!" none false = none ∧
    mkRef "x" none false = some ⟨"x", none, false⟩ := by
  refine ⟨?_, ?_, ?_, ?_⟩ <;> decide

/-- Claim C6: `Ref` equality holds iff `(name, has_value, value)` agree,
equal Refs have equal hashes (for any underlying Python hash functions), and
the four order relations depend only on the names. -/
theorem ref_contract : ∀ a b : Ref,
    (refEq a b = true ↔
      a.name = b.name ∧ a.has_value = b.has_value ∧ a.value = b.value) ∧
    (∀ hs hv hb, refEq a b = true → refHash hs hv hb a = refHash hs hv hb b) ∧
    (∀ a2 b2 : Ref, a.name = a2.name → b.name = b2.name →
      refLt a b = refLt a2 b2 ∧ refLe a b = refLe a2 b2 ∧
      refGt a b = refGt a2 b2 ∧ refGe a b = refGe a2 b2) := by
  intro a b
  have hiff : refEq a b = true ↔
      a.name = b.name ∧ a.has_value = b.has_value ∧ a.value = b.value := by
    simp [refEq, and_assoc]
  refine ⟨hiff, fun hs hv hb h => ?_, fun a2 b2 h1 h2 => ?_⟩
  · obtain ⟨e1, e2, e3⟩ := hiff.mp h
    unfold refHash
    rw [e1, e2, e3]
  · unfold refLt refLe refGt refGe
    rw [h1, h2]
    exact ⟨rfl, rfl, rfl, rfl⟩

/-- Witness for C6: hash agreement extracted from the contract at two equal
concrete Refs. -/
theorem ref_contract_witness :
    refHash (fun _ => 1) (fun _ => 2) (fun _ => 3) ⟨"a", none, false⟩ =
      refHash (fun _ => 1) (fun _ => 2) (fun _ => 3) ⟨"a", none, false⟩ :=
  (ref_contract ⟨"a", none, false⟩ ⟨"a", none, false⟩).2.1 _ _ _ (by decide)

/-- Claim C7: copy and deepcopy are the identity on the singleton values,
hashing goes through the class discriminator alone, and two singleton values
of the same class are the same value (one logical instance per class). -/
theorem singleton_contract : ∀ v : SingletonVal,
    singleton_copy v = v ∧
    singleton_deepcopy v () = v ∧
    (∀ h : SingletonClass → Nat, singleton_hash h v = h (classOf v)) ∧
    (∀ w : SingletonVal, classOf v = classOf w → v = w) := by
  intro v
  refine ⟨rfl, rfl, fun h => rfl, fun w hw => ?_⟩
  cases v <;> cases w <;> first | rfl | exact absurd hw (by decide)

/-- Witness for C7: the contract applied at `MARKER`. -/
theorem singleton_contract_witness :
    singleton_copy MARKER = MARKER ∧ MARKER = MARKER :=
  ⟨(singleton_contract MARKER).1, (singleton_contract MARKER).2.2.2 MARKER rfl⟩

/-- Claim C9: `Coordinate` equality is componentwise on latitude and
longitude, and the hash is the XOR of the two component hashes (for any
underlying Python float hash). -/
theorem coordinate_contract : ∀ (a b : Coordinate) (hf : PFloat → Nat),
    (coordEq a b = true ↔
      pfeq a.latitude b.latitude = true ∧ pfeq a.longitude b.longitude = true) ∧
    coordHash hf a = hf a.latitude ^^^ hf a.longitude := by
  intro a b hf
  exact ⟨by simp [coordEq], rfl⟩

/-- Claim C10: `XStr` equality compares only the decoded data and ignores the
encoding, and two XStrs constructed with `hex` and `b64` payloads are equal
exactly when the payloads decode to the same bytes. -/
theorem xstr_contract :
    (∀ x y : XStr, xstrEq x y = true ↔ x.data = y.data) ∧
    (∀ (s t : String) (x y : XStr),
      mkXStr "hex" s = some x → mkXStr "b64" t = some y →
      (xstrEq x y = true ↔ hexDecode s = b64Decode t)) := by
  constructor
  · intro x y
    exact pdEq_iff x.data y.data
  · intro s t x y hx hy
    unfold mkXStr at hx hy
    rw [if_pos rfl] at hx
    rw [if_neg (by decide), if_pos rfl] at hy
    cases hd : hexDecode s with
    | none => rw [hd] at hx; exact absurd hx (by simp)
    | some bs =>
      cases hb : b64Decode t with
      | none => rw [hb] at hy; exact absurd hy (by simp)
      | some cs =>
        rw [hd] at hx
        rw [hb] at hy
        rw [Option.map_some'] at hx hy
        obtain rfl := Option.some.inj hx
        obtain rfl := Option.some.inj hy
        simp [xstrEq, pdEq]

/-- Witness for C10: `XStr("hex", "00")` equals `XStr("b64", "AA==")`, both
decoding to the single zero byte. -/
theorem xstr_contract_witness :
    xstrEq ⟨"hex", PyData.bytes [0]⟩ ⟨"b64", PyData.bytes [0]⟩ = true :=
  (xstr_contract.2 "00" "AA==" ⟨"hex", PyData.bytes [0]⟩ ⟨"b64", PyData.bytes [0]⟩
    (by decide) (by decide)).mpr (by decide)

/-- A cell parses to `_EMPTY` exactly when it is the empty string. -/
theorem csv_cell_empty_iff (zp : String → Option CVal) (c : String) :
    csv_parse_scalar zp c = Except.ok CsvCell.empty ↔ c = "" := by
  constructor
  · intro h
    by_contra hc
    unfold csv_parse_scalar at h
    rw [if_neg hc] at h
    by_cases h1 : c = "✓"
    · rw [if_pos h1] at h
      exact CsvCell.noConfusion (Except.ok.inj h)
    rw [if_neg h1] at h
    by_cases h2 : c = "true"
    · rw [if_pos h2] at h
      exact CsvCell.noConfusion (Except.ok.inj h)
    rw [if_neg h2] at h
    by_cases h3 : c = "false"
    · rw [if_pos h3] at h
      exact CsvCell.noConfusion (Except.ok.inj h)
    rw [if_neg h3] at h
    by_cases h4 : c.toList.head? = some '@'
    · rw [if_pos h4] at h
      split at h
      · exact CsvCell.noConfusion (Except.ok.inj h)
      · exact Except.noConfusion h
    · rw [if_neg h4] at h
      split at h
      · exact CsvCell.noConfusion (Except.ok.inj h)
      · exact CsvCell.noConfusion (Except.ok.inj h)
  · intro h
    subst h
    rfl

/-- The row loop raises the overflow `ParseError` exactly when `hasOverflow`
marks the row, provided every cell parses. -/
theorem rowLoop_overflow (zp : String → Option CVal) (headers : List String) :
    ∀ (cells : List String) (idx : Nat) (a_map : List (String × CVal)),
    (∀ c ∈ cells, isOkE (csv_parse_scalar zp c) = true) →
    (rowLoop zp headers idx cells a_map = Except.error PErr.parse ↔
      hasOverflow headers.length idx cells = true) := by
  intro cells
  induction cells with
  | nil =>
    intro idx a_map _
    simp [rowLoop, hasOverflow]
  | cons c rest ih =>
    intro idx a_map hok
    have hc := hok c (List.mem_cons_self c rest)
    have hrest : ∀ x ∈ rest, isOkE (csv_parse_scalar zp x) = true :=
      fun x hx => hok x (List.mem_cons_of_mem c hx)
    cases hres : csv_parse_scalar zp c with
    | error e =>
      rw [hres] at hc
      exact absurd hc (by simp [isOkE])
    | ok cell =>
      cases cell with
      | empty =>
        have hce : c = "" := (csv_cell_empty_iff zp c).mp hres
        have hl : rowLoop zp headers idx (c :: rest) a_map =
            rowLoop zp headers (idx + 1) rest a_map := by
          simp only [rowLoop]
          rw [hres]
        have hr : hasOverflow headers.length idx (c :: rest) =
            hasOverflow headers.length (idx + 1) rest := by
          simp only [hasOverflow]
          rw [if_pos hce]
        rw [hl, hr]
        exact ih (idx + 1) a_map hrest
      | val v =>
        have hcne : c ≠ "" := by
          intro hce
          have h2 := (csv_cell_empty_iff zp c).mpr hce
          rw [hres] at h2
          exact CsvCell.noConfusion (Except.ok.inj h2)
        have hr : hasOverflow headers.length idx (c :: rest) =
            (decide (headers.length ≤ idx) || hasOverflow headers.length (idx + 1) rest) := by
          simp only [hasOverflow]
          rw [if_neg hcne]
        have hstep : rowLoop zp headers idx (c :: rest) a_map =
            (if headers.length ≤ idx then Except.error PErr.parse
             else if v = CVal.null then rowLoop zp headers (idx + 1) rest a_map
             else rowLoop zp headers (idx + 1) rest
               (dictInsert a_map (headers.getD idx "") v)) := by
          simp only [rowLoop]
          rw [hres]
        by_cases hidx : headers.length ≤ idx
        · have hl : rowLoop zp headers idx (c :: rest) a_map = Except.error PErr.parse := by
            rw [hstep, if_pos hidx]
          rw [hl, hr]
          simp [hidx]
        · have hl : rowLoop zp headers idx (c :: rest) a_map =
              (if v = CVal.null then rowLoop zp headers (idx + 1) rest a_map
               else rowLoop zp headers (idx + 1) rest
                 (dictInsert a_map (headers.getD idx "") v)) := by
            rw [hstep, if_neg hidx]
          rw [hl, hr]
          have hd : decide (headers.length ≤ idx) = false := by
            simp [hidx]
          rw [hd, Bool.false_or]
          by_cases hv : v = CVal.null
          · rw [if_pos hv]
            exact ih (idx + 1) a_map hrest
          · rw [if_neg hv]
            exact ih (idx + 1) _ hrest

/-- `hasOverflow` holds exactly when some non-empty cell sits at a running
index with no header. -/
theorem hasOverflow_iff (n : Nat) :
    ∀ (cells : List String) (idx : Nat),
    hasOverflow n idx cells = true ↔
      ∃ j, ∃ hj : j < cells.length, n ≤ idx + j ∧ cells.get ⟨j, hj⟩ ≠ "" := by
  intro cells
  induction cells with
  | nil =>
    intro idx
    simp [hasOverflow]
  | cons c rest ih =>
    intro idx
    by_cases hc : c = ""
    · have hr : hasOverflow n idx (c :: rest) = hasOverflow n (idx + 1) rest := by
        simp only [hasOverflow]
        rw [if_pos hc]
      rw [hr, ih (idx + 1)]
      constructor
      · rintro ⟨j, hj, h1, h2⟩
        exact ⟨j + 1, Nat.succ_lt_succ hj, by omega, h2⟩
      · rintro ⟨j, hj, h1, h2⟩
        cases j with
        | zero => exact absurd hc h2
        | succ j => exact ⟨j, Nat.lt_of_succ_lt_succ hj, by omega, h2⟩
    · have hr : hasOverflow n idx (c :: rest) =
          (decide (n ≤ idx) || hasOverflow n (idx + 1) rest) := by
        simp only [hasOverflow]
        rw [if_neg hc]
      rw [hr, Bool.or_eq_true, decide_eq_true_eq, ih (idx + 1)]
      constructor
      · rintro (h | ⟨j, hj, h1, h2⟩)
        · exact ⟨0, Nat.succ_pos _, by omega, hc⟩
        · exact ⟨j + 1, Nat.succ_lt_succ hj, by omega, h2⟩
      · rintro ⟨j, hj, h1, h2⟩
        cases j with
        | zero => exact Or.inl (by omega)
        | succ j => exact Or.inr ⟨j, Nat.lt_of_succ_lt_succ hj, by omega, h2⟩

/-- Claim C3, counterexample: headers `a` with the data row `true,` (two
cells against one header) parse successfully — the extra cell is empty, so
no `ParseError` is raised. -/
theorem csv_overflow_counterexample :
    csv_parse_grid zincStub ["a"] [["true", ""]] =
      Except.ok [[("a", CVal.bool true)]] := by
  rfl

/-- Claim C3, amended: provided every cell of the data row itself parses (no
invalid `@` cell), the parse raises the overflow `ParseError` iff some
non-empty cell sits at an index with no header; extra empty cells are
silently ignored. -/
theorem csv_overflow_contract :
    ∀ (zp : String → Option CVal) (headers : List String) (row : List String),
    (∀ c ∈ row, isOkE (csv_parse_scalar zp c) = true) →
    (csv_parse_grid zp headers [row] = Except.error PErr.parse ↔
      ∃ j, ∃ hj : j < row.length, headers.length ≤ j ∧ row.get ⟨j, hj⟩ ≠ "") := by
  intro zp headers row hok
  have h1 : csv_parse_grid zp headers [row] = Except.error PErr.parse ↔
      rowLoop zp headers 0 row [] = Except.error PErr.parse := by
    cases hrl : rowLoop zp headers 0 row [] with
    | error e =>
      simp only [csv_parse_grid]
      rw [hrl]
      simp
    | ok m =>
      simp only [csv_parse_grid]
      rw [hrl]
      simp
  rw [h1, rowLoop_overflow zp headers row 0 [] hok, hasOverflow_iff]
  simp only [Nat.zero_add]

/-- Witness for C3: the contract applied at one header and the data row
`true,x`, whose extra non-empty cell makes the parse fail. -/
theorem csv_overflow_contract_witness :
    csv_parse_grid zincStub ["a"] [["true", "x"]] = Except.error PErr.parse :=
  (csv_overflow_contract zincStub ["a"] ["true", "x"] (by decide)).mpr
    ⟨1, by decide, by decide, by decide⟩

/-- Claim C4, counterexample: the cell `"@"` starts with `@` but does not
yield a Ref — the empty name fails `Ref.__init__`'s validation, so the cell
parse raises `AssertionError` instead. -/
theorem csv_cell_counterexample :
    csv_parse_scalar zincStub "@" = Except.error PErr.assertion := by
  rfl

/-- Claim C4, amended: the cell parser follows the fixed rule table — empty
cell is absence, the check mark is Marker, `true`/`false` are Bool, a cell
starting with `@` yields a Ref built from the name and the optional display
after the first space when that name is a valid Ref name (and raises
`AssertionError` when it is not, e.g. for the bare cell `@`), and any other
cell is parsed as a Zinc scalar with plain-String fallback; the row
`✓,,true,@x` under headers `a,b,c,d` yields
`{a: Marker, c: Bool(true), d: Ref("x")}` with `b` omitted. -/
theorem csv_cell_contract :
    (∀ zp, csv_parse_scalar zp "" = Except.ok CsvCell.empty) ∧
    (∀ zp, csv_parse_scalar zp "✓" = Except.ok (CsvCell.val CVal.marker)) ∧
    (∀ zp, csv_parse_scalar zp "true" = Except.ok (CsvCell.val (CVal.bool true))) ∧
    (∀ zp, csv_parse_scalar zp "false" = Except.ok (CsvCell.val (CVal.bool false))) ∧
    (∀ zp s, s ≠ "" → s ≠ "✓" → s ≠ "true" → s ≠ "false" →
      s.toList.head? = some '@' →
      ((refNameOk (splitFirstSpace (String.mk (s.toList.drop 1))).1 = true →
         csv_parse_scalar zp s = Except.ok (CsvCell.val (CVal.ref
           ⟨(splitFirstSpace (String.mk (s.toList.drop 1))).1,
            (splitFirstSpace (String.mk (s.toList.drop 1))).2,
            (splitFirstSpace (String.mk (s.toList.drop 1))).2.isSome⟩))) ∧
       (refNameOk (splitFirstSpace (String.mk (s.toList.drop 1))).1 = false →
         csv_parse_scalar zp s = Except.error PErr.assertion))) ∧
    (∀ zp s, s ≠ "" → s ≠ "✓" → s ≠ "true" → s ≠ "false" →
      ¬s.toList.head? = some '@' →
      ((∀ v, zp s = some v →
         csv_parse_scalar zp s = Except.ok (CsvCell.val v)) ∧
       (zp s = none →
         csv_parse_scalar zp s = Except.ok (CsvCell.val (CVal.str s))))) ∧
    (∀ zp, csv_parse_grid zp ["a", "b", "c", "d"] [["✓", "", "true", "@x"]] =
      Except.ok [[("a", CVal.marker), ("c", CVal.bool true),
        ("d", CVal.ref ⟨"x", none, false⟩)]]) := by
  refine ⟨fun zp => rfl, fun zp => rfl, fun zp => rfl, fun zp => rfl, ?_, ?_,
    fun zp => rfl⟩
  · intro zp s h0 h1 h2 h3 h4
    constructor
    · intro hr
      unfold csv_parse_scalar
      rw [if_neg h0, if_neg h1, if_neg h2, if_neg h3, if_pos h4]
      unfold mkRef
      rw [if_pos hr]
      rfl
    · intro hr
      unfold csv_parse_scalar
      rw [if_neg h0, if_neg h1, if_neg h2, if_neg h3, if_pos h4]
      unfold mkRef
      rw [if_neg (by rw [hr]; exact Bool.false_ne_true)]
  · intro zp s h0 h1 h2 h3 h4
    constructor
    · intro v hv
      unfold csv_parse_scalar
      rw [if_neg h0, if_neg h1, if_neg h2, if_neg h3, if_neg h4, hv]
    · intro hv
      unfold csv_parse_scalar
      rw [if_neg h0, if_neg h1, if_neg h2, if_neg h3, if_neg h4, hv]

/-- Witness for C4: the contract's `@`-rule applied at the concrete cell
`@x y` (name `x`, display `y`). -/
theorem csv_cell_contract_witness :
    csv_parse_scalar zincStub "@x y" =
      Except.ok (CsvCell.val (CVal.ref ⟨"x", some "y", true⟩)) :=
  (csv_cell_contract.2.2.2.2.1 zincStub "@x y" (by decide) (by decide) (by decide)
    (by decide) (by decide)).1 (by decide)

/-- Inserting into an equally weighted list appends at the end (stability of
the descending sort). -/
theorem insertDesc_all_one (x : AItem) (hx : x.weight = 1) :
    ∀ acc : List AItem, (∀ y ∈ acc, y.weight = 1) → insertDesc x acc = acc ++ [x] := by
  intro acc
  induction acc with
  | nil => intro _; rfl
  | cons y ys ih =>
    intro h
    have hy : y.weight = 1 := h y (List.mem_cons_self y ys)
    have hlt : ¬y.weight < x.weight := by
      rw [hy, hx]
      exact lt_irrefl 1
    simp only [insertDesc]
    rw [if_neg hlt, ih (fun z hz => h z (List.mem_cons_of_mem y hz))]
    rfl

theorem sortDesc_all_one_aux :
    ∀ (l acc : List AItem), (∀ y ∈ l, y.weight = 1) → (∀ y ∈ acc, y.weight = 1) →
    List.foldl (fun a x => insertDesc x a) acc l = acc ++ l := by
  intro l
  induction l with
  | nil =>
    intro acc _ _
    simp
  | cons x xs ih =>
    intro acc hl hacc
    have hx : x.weight = 1 := hl x (List.mem_cons_self x xs)
    simp only [List.foldl]
    rw [insertDesc_all_one x hx acc hacc]
    rw [ih (acc ++ [x]) (fun y hy => hl y (List.mem_cons_of_mem x hy))
      (fun y hy => by
        rcases List.mem_append.mp hy with h | h
        · exact hacc y h
        · rw [List.mem_singleton.mp h]
          exact hx)]
    simp

/-- A header whose items all carry the default weight 1 sorts to itself:
Python's stable descending sort keeps header order among equal weights. -/
theorem sortDesc_all_one (l : List AItem) (h : ∀ y ∈ l, y.weight = 1) :
    sortDesc l = l := by
  unfold sortDesc
  rw [sortDesc_all_one_aux l [] h (fun y hy => absurd hy (List.not_mem_nil y))]
  rfl

/-- Claim C8, counterexample: with the header `Accept: text/zinc, text/csv`
(both acceptable, both weight 1) the response is Zinc, not CSV — among
equally weighted acceptable types the header order decides, not the claimed
csv > zinc > json preference. -/
theorem accept_counterexample :
    dump_response dumpStub [⟨"text", "zinc", 1⟩, ⟨"text", "csv", 1⟩] none =
      Except.ok ("text/zinc; charset=utf-8", dumpStub "text/zinc") := by
  rfl

/-- Claim C8, amended: a sole `*/*` accept yields CSV (the available list is
scanned csv-before-zinc-before-json within one acceptable pattern); among
equally weighted acceptable types the first one in header order that matches
an available type wins; and when no acceptable type matches, the dump step
returns the supplied default, or signals HTTP 406 when there is none. -/
theorem accept_contract : ∀ dmp : String → String,
    (dump_response dmp [⟨"*", "*", 1⟩] none =
      Except.ok (MODE_CSV ++ "; charset=utf-8", dmp MODE_CSV)) ∧
    (∀ items : List AItem, (∀ it ∈ items, it.weight = 1) →
      get_best_match items =
        (items.findSome? (fun it => availTypes.find? (fun av => amatches it av))).map
          render) ∧
    (∀ items : List AItem, get_best_match items = none →
      dump_response dmp items none = Except.error 406) ∧
    (∀ (items : List AItem) (d : String), get_best_match items = none →
      dump_response dmp items (some d) =
        Except.ok (d ++ "; charset=utf-8", dmp d)) := by
  intro dmp
  refine ⟨rfl, ?_, ?_, ?_⟩
  · intro items h
    unfold get_best_match
    rw [sortDesc_all_one items h]
  · intro items h
    unfold dump_response
    rw [h]
    rfl
  · intro items d h
    unfold dump_response
    rw [h]
    rfl

/-- Witness for C8: the contract's 406 branch applied at the unmatched
header `Accept: image/png`. -/
theorem accept_contract_witness :
    dump_response dumpStub [⟨"image", "png", 1⟩] none = Except.error 406 :=
  (accept_contract dumpStub).2.2.1 [⟨"image", "png", 1⟩] (by rfl)
